import Mathlib

/-!
Verification of the retrieval-and-query core of the Streamlit code-explainer
chatbot (files `code_analyzer.py`, `app.py`).

Strings are modelled as `List Char` (Python `str`).  Python's `in` operator on
strings is contiguous-substring containment, modelled by `occursIn`; `str.lower`
is modelled by `Char.toLower` (the paths and queries involved are ASCII, where
the two agree).  Python `dict`s preserve insertion order, so a dict is modelled
as an association list whose insertion (`dictInsert`) overwrites in place, and
whose value iteration (`dictValues`) walks insertion order; `dict.values()`
iteration in a `for` loop returning on the first hit is `List.find?`.

External collaborators (the LangChain conversational chain = Answer Generator +
Semantic Index, and the text splitter = Chunker) are not repository code; they
enter the embedding as function parameters (`gen`, `split`), with the behaviour
the spec assigns to them stated as explicit hypotheses where a claim needs it.
-/

/-- Python `str`, modelled as its list of characters. -/
abbrev Str := List Char

/-- Python `str.lower` (ASCII range; all concrete inputs here are ASCII). -/
def lowerStr (s : Str) : Str := s.map Char.toLower

/-- `pat` occurs at the head of `s`. -/
def leadsWith : Str → Str → Bool
  | [], _ => true
  | _ :: _, [] => false
  | a :: as, b :: bs => a == b && leadsWith as bs

/-- Python `pat in s` for strings: contiguous-substring containment. -/
def occursIn (pat : Str) : Str → Bool
  | [] => pat.isEmpty
  | b :: rest => leadsWith pat (b :: rest) || occursIn pat rest

/-- Python `str.strip`: drop leading and trailing whitespace. -/
def strip (s : Str) : Str :=
  ((s.dropWhile Char.isWhitespace).reverse.dropWhile Char.isWhitespace).reverse

/-- The character `'` (kept out of string literals). -/
def apoCh : Char := Char.ofNat 39

/-- The path separator used by `pathlib.PurePosixPath`. -/
def slashStr : Str := "/".data

/-- `pathlib.Path(p).parts` for the normalized relative paths produced by the
repository walk: the `/`-separated components. -/
def partsOf (p : Str) : List Str := List.splitOn '/' p

/-- `pathlib.Path(p).name`: the last path component. -/
def nameOf (p : Str) : Str := (partsOf p).getLastD []

/-- `str(pathlib.Path(p).parent)`: all but the last component joined by `/`,
or `"."` for a bare filename. -/
def parentOf (p : Str) : Str :=
  if (partsOf p).length ≤ 1 then ".".data
  else List.intercalate slashStr (partsOf p).dropLast

/-- `pathlib.Path(p).suffix`: the final extension of the last component,
empty for names with no dot, a leading dot, or a trailing dot. -/
def suffixOf (p : Str) : Str :=
  let n := nameOf p
  match n.reverse.findIdx? (· == '.') with
  | some j =>
    let i := n.length - 1 - j
    if 0 < i ∧ i < n.length - 1 then n.drop i else []
  | none => []

/-- `Path(p).suffix[1:]`: the extension without its dot. -/
def extOf (p : Str) : Str := (suffixOf p).drop 1

/-! ## File Resolver (`CodeAnalyzer._find_file_path`, code_analyzer.py:143-166) -/

/-- Level 1 of `_find_file_path`: the whole known path occurs (lowercased)
in the lowercased query `ql`. -/
def exactHit (ql : Str) (p : Str) : Bool := occursIn (lowerStr p) ql

/-- Level 2 of `_find_file_path`: the base filename occurs in the query. -/
def nameHit (ql : Str) (p : Str) : Bool := occursIn (lowerStr (nameOf p)) ql

/-- The candidate partial paths tried at level 3: for `i = 0, 1, ...`,
`str(Path(*parts[-(i+1):]))`, i.e. the joined suffixes of the component list,
shortest first. -/
def suffixJoins (p : Str) : List Str :=
  let ps := partsOf p
  (List.range ps.length).map
    (fun i => List.intercalate slashStr (ps.drop (ps.length - (i + 1))))

/-- Level 3 of `_find_file_path`: some joined component suffix of the path
occurs in the query. -/
def suffixHit (ql : Str) (p : Str) : Bool :=
  (suffixJoins p).any (fun s => occursIn (lowerStr s) ql)

/-- `CodeAnalyzer._find_file_path` (code_analyzer.py:143-166).  `vals` is
`self.file_map.values()` in insertion order (one entry per registered chunk);
each of the three `for` loops returns on the first matching path, which is
`List.find?`. -/
def find_file_path (query : Str) (vals : List Str) : Option Str :=
  let ql := lowerStr query
  match vals.find? (exactHit ql) with
  | some p => some p
  | none =>
    match vals.find? (nameHit ql) with
    | some p => some p
    | none => vals.find? (suffixHit ql)

/-! ## Document Store and ingestion (`CodeAnalyzer.process_code_files`) -/

/-- Python `dict` assignment `d[k] = v`: overwrite in place, else append. -/
def dictInsert {α : Type} (d : List (Str × α)) (k : Str) (v : α) : List (Str × α) :=
  match d with
  | [] => [(k, v)]
  | (k', v') :: rest => if k' = k then (k, v) :: rest else (k', v') :: dictInsert rest k v

/-- Python `d.get(k)`. -/
def dictFind {α : Type} (d : List (Str × α)) (k : Str) : Option α :=
  match d with
  | [] => none
  | (k', v) :: rest => if k' = k then some v else dictFind rest k

/-- Python `d.values()` in insertion order. -/
def dictValues {α : Type} (d : List (Str × α)) : List α := d.map (·.2)

/-- The metadata attached to each chunk at code_analyzer.py:105-110. -/
structure ChunkMeta where
  file : Str
  chunk_id : Nat
  file_type : Str
  file_name : Str
deriving DecidableEq

/-- `doc_id = f"{file_path}_{i}"` (code_analyzer.py:101). -/
def docId (p : Str) (i : Nat) : Str := p ++ "_".data ++ (Nat.repr i).data

/-- The `(text, metadata)` documents registered for one file with content `c`
at code_analyzer.py:98-111: chunks are enumerated from 0 and a chunk that is
empty after stripping is skipped (its enumeration index is still consumed). -/
def fileDocuments (split : Str → List Str) (p c : Str) : List (Str × ChunkMeta) :=
  (List.enum (split c)).filterMap (fun ic =>
    if (strip ic.2).isEmpty then none
    else some (ic.2, ⟨p, ic.1, extOf p, nameOf p⟩))

/-- The documents a `(path, content)` pair contributes, including the
whole-file guard at code_analyzer.py:81-82 (files empty after stripping are
skipped entirely). -/
def fileDocs (split : Str → List Str) (pc : Str × Str) : List (Str × ChunkMeta) :=
  if (strip pc.2).isEmpty then [] else fileDocuments split pc.1 pc.2

/-- The state of `CodeAnalyzer` (code_analyzer.py:54-65): whether
`self.vector_store` and `self.conversation_chain` are set (`true`) or `None`,
the conversation memory as (question, answer) turns, and the two dicts
`self.file_map` (doc_id -> path) and `self.file_contents` (path -> content). -/
structure AnalyzerState where
  vector_store : Bool
  conversation_chain : Bool
  memory : List (Str × Str)
  file_map : List (Str × Str)
  file_contents : List (Str × Str)
deriving DecidableEq

/-- The state right after `CodeAnalyzer.__init__`. -/
def emptyAnalyzer : AnalyzerState :=
  { vector_store := false, conversation_chain := false,
    memory := [], file_map := [], file_contents := [] }

/-- The loop body of `process_code_files` for one successfully read file
(code_analyzer.py:75-111): skip files empty after strip; otherwise store the
original content verbatim in `file_contents` and register each kept chunk's
doc_id -> path entry in `file_map`. -/
def process_one (split : Str → List Str) (st : AnalyzerState) (pc : Str × Str) :
    AnalyzerState :=
  if (strip pc.2).isEmpty then st
  else
    { st with
      file_contents := dictInsert st.file_contents pc.1 pc.2,
      file_map := (fileDocuments split pc.1 pc.2).foldl
        (fun m d => dictInsert m (docId d.2.file d.2.chunk_id) d.2.file) st.file_map }

/-- `CodeAnalyzer.process_code_files` (code_analyzer.py:67-141).  `files` is
the list of (path, content) pairs that were read successfully; a file whose
read raises is skipped by the per-file `except` and so simply does not appear.
If the accumulated `documents` list is non-empty the vector store and the
conversation chain are created (code_analyzer.py:116-138). -/
def process_code_files (split : Str → List Str) (st : AnalyzerState)
    (files : List (Str × Str)) : AnalyzerState :=
  if files.isEmpty then st
  else
    let st' := files.foldl (process_one split) st
    if ((files.map (fileDocs split)).flatten).isEmpty then st'
    else { st' with vector_store := true, conversation_chain := true }

/-! ## Query Router (`CodeAnalyzer.get_code_explanation`, code_analyzer.py:168-260) -/

/-- Outcome of one call of the LangChain conversational chain (Answer
Generator + Semantic Index, external collaborators): a normal return carrying
`response["answer"]` and the `file` metadata of `response["source_documents"]`,
or a raised exception carrying `str(e)`. -/
inductive GenOutcome where
  | ok (answer : Str) (sources : List Str)
  | err (msg : Str)

/-- What one `get_code_explanation` call produces: the returned string, how
many times the conversational chain was invoked, and the conversation memory
afterwards. -/
structure RouterResult where
  output : Str
  genCalls : Nat
  memory : List (Str × Str)
deriving DecidableEq

/-- The display-intent keywords at code_analyzer.py:179. -/
def displayKeywords : List Str :=
  ["show".data, "display".data,
   "what".data ++ [apoCh] ++ "s in".data,
   "what is in".data, "content of".data]

/-- The display-intent keywords the spec names (§4.5): the code's list minus
"what is in". -/
def specDisplayKeywords : List Str :=
  ["show".data, "display".data,
   "what".data ++ [apoCh] ++ "s in".data,
   "content of".data]

def notLoadedMsg : Str := "❌ Please load a repository first.".data

def contentMissingMsg (p : Str) : Str :=
  "❌ I found the file ".data ++ [apoCh] ++ p ++ [apoCh] ++
  " but couldn".data ++ [apoCh] ++
  "t retrieve its contents. Please try reloading the repository.".data

/-- The direct-content response at code_analyzer.py:194-198: header naming the
file and its path, then the stored content in a fence tagged with the file's
extension. -/
def showTemplate (p c : Str) : Str :=
  "📄 Contents of ".data ++ nameOf p ++ " (from ".data ++ p ++ "):\n\n```".data ++
  extOf p ++ "\n".data ++ c ++ "\n```".data

def timeoutWord : Str := "timeout".data

/-- code_analyzer.py:259. -/
def timeoutRetryMsg : Str :=
  ("⚠️ The request timed out. Please try:\n1. A more specific query\n" ++
   "2. Asking about a smaller part of the code\n" ++
   "3. Breaking your question into smaller parts").data

/-- code_analyzer.py:260. -/
def errExplainMsg (m : Str) : Str := "❌ Error generating explanation: ".data ++ m

/-- The string `get_code_explanation` returns when the chain raises an
exception with text `m` (code_analyzer.py:256-260). -/
def errorText (m : Str) : Str :=
  if occursIn timeoutWord (lowerStr m) then timeoutRetryMsg else errExplainMsg m

/-- code_analyzer.py:244. -/
def shortTimeoutMsg : Str :=
  "⚠️ Request timed out. Please try again with a more specific query.".data

/-- Models the guard `time.time() - start_time > timeout` at
code_analyzer.py:243: between `start_time` and this check the function only
does pure in-memory work (no blocking call), so the guard is never taken;
wall-clock time itself is outside the embedding. -/
def preCallTimeoutHit : Bool := false

/-- Models `hasattr(response, "source_documents")` at code_analyzer.py:249.
`response` is the `dict` returned by `ConversationalRetrievalChain.__call__`;
a Python `dict` exposes its entries by subscripting (`response["answer"]`),
not as attributes, so `hasattr` is `False` for every response and the
source-appending branch below it never executes. -/
def response_has_source_documents_attr : Bool := false

/-- The Sources block built at code_analyzer.py:250-251 (the `set` of source
files is modelled as first-occurrence dedup; the branch is unreachable, see
`response_has_source_documents_attr`). -/
def sourceInfo (sources : List Str) : Str :=
  "\n\n📁 Sources:\n".data ++
  List.intercalate ("\n".data) ((sources.dedup).map (fun s => "- ".data ++ s))

/-- One invocation of `self.conversation_chain({"question": q})` together with
the surrounding result/exception handling (code_analyzer.py:246-260).
Modelled from the spec: the chain is an external collaborator (§6, §7); per
§3 ConversationMemory is append-only on successful turns and per §7
(GeneratorError) a call that raises appends nothing, so `ok` appends the
(question, answer) turn and `err` leaves the memory unchanged. -/
def callChain (gen : Str → GenOutcome) (mem : List (Str × Str)) (question : Str) :
    RouterResult :=
  match gen question with
  | .ok ans srcs =>
    let out :=
      if response_has_source_documents_attr && !srcs.isEmpty
      then ans ++ sourceInfo srcs else ans
    ⟨out, 1, mem ++ [(question, ans)]⟩
  | .err m => ⟨errorText m, 1, mem⟩

/-! ## Structural prompt (code_analyzer.py:215-240) -/

/-- Python string `<=` on code points (lexicographic). -/
def strLe : Str → Str → Bool
  | [], _ => true
  | _ :: _, [] => false
  | a :: as, b :: bs =>
    decide (a.toNat < b.toNat) || (decide (a.toNat = b.toNat) && strLe as bs)

/-- `strLe` as a relation, for `List.insertionSort`. -/
def strLeR (a b : Str) : Prop := strLe a b = true

instance : DecidableRel strLeR := fun a b => inferInstanceAs (Decidable (strLe a b = true))

/-- Python `sorted` on a list of strings: a sort ascending by `strLe`
(insertion sort returns the same list as any stable sort here; on the
duplicate-free lists it is applied to, the sorted arrangement is unique). -/
def sortStr (l : List Str) : List Str := List.insertionSort strLeR l

/-- Comparison of `files_by_dir.items()` entries: Python tuple comparison
looks at the directory key first, and the keys of a dict are distinct, so the
value lists never get compared. -/
def groupLe (a b : Str × List Str) : Prop := strLeR a.1 b.1

instance : DecidableRel groupLe := fun a b => inferInstanceAs (Decidable (strLe a.1 b.1 = true))

/-- `sorted(files_by_dir.items())`. -/
def sortGroups (g : List (Str × List Str)) : List (Str × List Str) :=
  List.insertionSort groupLe g

/-- `files_by_dir.setdefault(dir, []).append(name)` on an insertion-ordered
dict of lists (code_analyzer.py:219-223). -/
def addToGroup (g : List (Str × List Str)) (d f : Str) : List (Str × List Str) :=
  match g with
  | [] => [(d, [f])]
  | (d', fs) :: rest =>
    if d' = d then (d', fs ++ [f]) :: rest else (d', fs) :: addToGroup rest d f

/-- The grouped, sorted file structure the router builds when no file
resolves (code_analyzer.py:217-230): distinct known paths sorted, grouped by
`str(Path(p).parent)`, groups sorted by directory, and the file names inside
each group sorted at formatting time (`for file in sorted(files)`). -/
def fileStructureGroups (vals : List Str) : List (Str × List Str) :=
  let ps := sortStr vals.dedup
  let g := ps.foldl (fun acc p => addToGroup acc (parentOf p) (nameOf p)) []
  (sortGroups g).map (fun e => (e.1, sortStr e.2))

/-- The lines joined into `file_list` (code_analyzer.py:226-232). -/
def structureLines (vals : List Str) : List Str :=
  (fileStructureGroups vals).foldl
    (fun acc e =>
      acc ++ ["\n📁 ".data ++ e.1 ++ ":".data] ++ e.2.map (fun f => "  - ".data ++ f))
    []

/-- The leading text of the structural prompt f-string
(code_analyzer.py:233-235). -/
def sqA : Str := "\n                Repository structure:\n                ".data

/-- The structural prompt text between `file_list` and the verbatim user
question. -/
def sqB : Str := "\n                \n                User question: ".data

/-- The trailing text of the structural prompt f-string
(code_analyzer.py:238-240). -/
def sqC : Str :=
  ("\n                \n                Note: The file might be in one of these " ++
   "directories. Please check the repository structure and inform the user " ++
   "about available files.\n                ").data

/-- The `enhanced_query` built when no file resolves (code_analyzer.py:233-240):
`file_list = "\n".join(file_structure)` spliced into the triple-quoted
f-string together with the verbatim user question. -/
def structuralQuery (vals : List Str) (q : Str) : Str :=
  sqA ++ List.intercalate ("\n".data) (structureLines vals) ++ sqB ++ q ++ sqC

/-! ## `get_code_explanation` itself -/

/-- The first fixed block of the file-explanation f-string
(code_analyzer.py:201-203). -/
def efqA : Str := "\n                Question about file: ".data

def efqB : Str := "\n                File path: ".data

def efqC : Str := "\n                \n                File content:\n                ```".data

def efqD : Str := "\n                ".data

def efqE : Str := "\n                ```\n                \n                User question: ".data

/-- The fixed instruction block closing the file-explanation f-string
(code_analyzer.py:212-214). -/
def efqF : Str :=
  ("\n                \n                Please provide a detailed explanation of the " ++
   "code, including its purpose, structure, and key components.\n                " ++
   "If the user is asking to see the code, include the code snippet in your " ++
   "response.\n                ").data

/-- The `enhanced_query` built when a file resolves and the intent is
explanation (code_analyzer.py:200-214). -/
def enhancedFileQuery (p c q : Str) : Str :=
  efqA ++ nameOf p ++ efqB ++ p ++ efqC ++ (suffixOf p).drop 1 ++ efqD ++ c ++
  efqE ++ q ++ efqF

/-- `CodeAnalyzer.get_code_explanation` (code_analyzer.py:168-260).  The
whole body sits in a `try` whose handler returns `errorText` (the only
raising step modelled is the chain call, inside `callChain`); the function
therefore returns a string on every input instead of propagating. -/
def get_code_explanation (gen : Str → GenOutcome) (st : AnalyzerState) (query : Str) :
    RouterResult :=
  if !st.conversation_chain then ⟨notLoadedMsg, 0, st.memory⟩
  else
    let show_code := displayKeywords.any (fun k => occursIn k (lowerStr query))
    match find_file_path query (dictValues st.file_map) with
    | some requested_file =>
      match dictFind st.file_contents requested_file with
      | none => ⟨contentMissingMsg requested_file, 0, st.memory⟩
      | some c =>
        if c.isEmpty then ⟨contentMissingMsg requested_file, 0, st.memory⟩
        else if show_code then ⟨showTemplate requested_file c, 0, st.memory⟩
        else if preCallTimeoutHit then ⟨shortTimeoutMsg, 0, st.memory⟩
        else callChain gen st.memory (enhancedFileQuery requested_file c query)
    | none =>
      if preCallTimeoutHit then ⟨shortTimeoutMsg, 0, st.memory⟩
      else callChain gen st.memory (structuralQuery (dictValues st.file_map) query)

/-! ## `CodeAnalyzer.reset` (code_analyzer.py:262-274) -/

/-- Whether `reset` calls `self.vector_store.delete_collection()`: only when a
vector store is present (code_analyzer.py:264-266). -/
def resetAttemptsTeardown (s : AnalyzerState) : Bool := s.vector_store

/-- `CodeAnalyzer.reset`.  `tdRaises` says whether the external
`delete_collection()` teardown raises; the `try/except: pass` around it
(code_analyzer.py:265-268) swallows the failure, so the resulting state does
not depend on it, and every local field is cleared unconditionally. -/
def resetAnalyzer (s : AnalyzerState) (tdRaises : Bool) : AnalyzerState :=
  { vector_store := false, conversation_chain := false,
    memory := [], file_map := [], file_contents := [] }

/-! ## `CodeExplainerBot` (app.py:8-45) -/

/-- The bot state: `self.current_repo_url` plus the analyzer it owns.  The
`RepoHandler`'s temporary clone directory is filesystem state outside the
embedding; its `cleanup()` does not touch any field modelled here. -/
structure BotState where
  current_repo_url : Option Str
  analyzer : AnalyzerState
deriving DecidableEq

def loadFailMsg (e : Str) : Str := "❌ Error loading repository: ".data ++ e

def loadOkMsg : Str :=
  "✅ Repository loaded successfully! You can now ask questions about the code.".data

/-- `CodeExplainerBot.load_repository` (app.py:15-35).  `cloneResult` is the
outcome of `self.repo_handler.clone_repo` plus `get_all_files` plus reading
each file (external git/filesystem work): either the list of (path, content)
pairs read, or a raised exception's text.  The handler first cleans up and
resets the analyzer, then clones; on failure the `except` returns the error
message, leaving `current_repo_url` (assigned only after success, app.py:31)
unchanged. -/
def load_repository (split : Str → List Str) (b : BotState) (url : Str)
    (cloneResult : Except Str (List (Str × Str))) (tdRaises : Bool) :
    BotState × Str :=
  let a0 := resetAnalyzer b.analyzer tdRaises
  match cloneResult with
  | .error e => ({ b with analyzer := a0 }, loadFailMsg e)
  | .ok files =>
    ({ current_repo_url := some url,
       analyzer := process_code_files split a0 files }, loadOkMsg)

def botNotLoadedMsg : Str :=
  "Please load a repository first by providing a GitHub URL.".data

/-- `CodeExplainerBot.get_response` (app.py:37-45): gate on
`self.current_repo_url`, then delegate to the analyzer (whose embedding is
total, so the outer `except` is never taken). -/
def get_response (gen : Str → GenOutcome) (b : BotState) (q : Str) : RouterResult :=
  match b.current_repo_url with
  | none => ⟨botNotLoadedMsg, 0, b.analyzer.memory⟩
  | some _ => get_code_explanation gen b.analyzer q

/-- The (directory, filename) entries a grouped file structure lists, flattened
in listing order. -/
def pairsOf (g : List (Str × List Str)) : List (Str × Str) :=
  (g.map (fun e => e.2.map (fun f => (e.1, f)))).flatten

/-! ## Concrete instances used by witnesses and counterexamples -/

/-- The path `src/a/Button.tsx` from the spec's resolver examples. -/
def exButtonA : Str := "src/a/Button.tsx".data

/-- The path `src/b/Button.tsx` from the spec's resolver examples. -/
def exButtonB : Str := "src/b/Button.tsx".data

/-- The spec's two-element path set, in one insertion order. -/
def exButtonPaths : List Str := [exButtonA, exButtonB]

def exShowQuery : Str := "show src/a/Button.tsx".data

def exCheckQuery : Str := "check Button.tsx".data

def exButtonName : Str := "Button.tsx".data

def appPath : Str := "app.py".data

def appContent : Str := "import streamlit\nprint(123)\n".data

/-- A generator that is never consulted successfully (used where the claim
forbids or ignores generator output). -/
def genNull : Str → GenOutcome := fun _ => GenOutcome.err []

/-- A loaded one-file analyzer state as produced by ingesting `app.py`. -/
def stApp : AnalyzerState :=
  { vector_store := true, conversation_chain := true, memory := [],
    file_map := [(docId appPath 0, appPath)],
    file_contents := [(appPath, appContent)] }

def exShowAppQuery : Str := "show app.py".data

def exExplainQuery : Str := "explain app.py".data

def exAnswer : Str := "It is the Streamlit entry point of the project.".data

/-- A generator reporting a non-empty source-chunk set. -/
def genWithSources : Str → GenOutcome := fun _ => GenOutcome.ok exAnswer [appPath]

def sourcesMarker : Str := "Sources".data

def exErrMsg : Str := "Request timeout while contacting the model".data

/-- The identity chunker: one chunk holding the whole file. -/
def splitOne : Str → List Str := fun c => [c]

def exFiles : List (Str × Str) := [(appPath, appContent)]

/-- The state after loading `exFiles` with `splitOne` into a fresh analyzer. -/
def stProc : AnalyzerState := process_code_files splitOne emptyAnalyzer exFiles

/-- A loaded three-file state across three directories (structural-prompt
witness). -/
def stThree : AnalyzerState :=
  { vector_store := true, conversation_chain := true, memory := [],
    file_map :=
      [(docId ("src/b/z.py".data) 0, "src/b/z.py".data),
       (docId ("src/a/c.py".data) 0, "src/a/c.py".data),
       (docId ("top.py".data) 0, "top.py".data)],
    file_contents :=
      [("src/b/z.py".data, "z = 1\n".data),
       ("src/a/c.py".data, "c = 2\n".data),
       ("top.py".data, "t = 3\n".data)] }

def exHelloQuery : Str := "hello".data

def exOldUrl : Str := "https://github.com/u/old".data

def exNewUrl : Str := "https://github.com/u/new".data

def exCloneErr : Str := "Failed to clone repository: network unreachable".data

/-- A bot that had successfully loaded a repository. -/
def botPrev : BotState := { current_repo_url := some exOldUrl, analyzer := stApp }

/-! ## Helper lemmas -/

theorem find?_first {α : Type} (pred : α → Bool) (l₁ l₂ : List α) (p : α)
    (hp : pred p = true) (hl : ∀ x ∈ l₁, pred x = false) :
    (l₁ ++ p :: l₂).find? pred = some p := by
  rw [List.find?_append]
  have h1 : l₁.find? pred = none := List.find?_eq_none.mpr (by intro x hx; simp [hl x hx])
  rw [h1, List.find?_cons_of_pos _ hp]
  rfl

theorem find?_of_exists {α : Type} (pred : α → Bool) (l : List α)
    (h : ∃ p ∈ l, pred p = true) :
    ∃ r ∈ l, l.find? pred = some r ∧ pred r = true := by
  obtain ⟨p, hp, hhit⟩ := h
  cases hfind : l.find? pred with
  | none => exact absurd hhit (by simpa using List.find?_eq_none.mp hfind p hp)
  | some r =>
    exact ⟨r, List.mem_of_find?_eq_some hfind, rfl, List.find?_some hfind⟩

theorem find?_none_of_all {α : Type} (pred : α → Bool) (l : List α)
    (h : ∀ x ∈ l, pred x = false) : l.find? pred = none :=
  List.find?_eq_none.mpr (by intro x hx; simp [h x hx])

/-! ## C1: resolver strict priority order -/

/-- **C1.** The File Resolver tries its strategies in strict priority order,
returning on the first success: if some known path occurs case-insensitively
in the query, the resolver returns such a path; otherwise, if some base
filename occurs in the query, it returns such a path (never absent);
otherwise it falls through to suffix-of-path-components matching.  On the
spec's concrete examples, `"show src/a/Button.tsx"` resolves to exactly
`src/a/Button.tsx`, and `"check Button.tsx"` resolves to a path whose base
name is `Button.tsx` (in either insertion order of the two tied paths). -/
theorem resolver_priority_order (q : Str) (vals : List Str) :
    ((∃ p ∈ vals, exactHit (lowerStr q) p = true) →
      ∃ r ∈ vals, find_file_path q vals = some r ∧ exactHit (lowerStr q) r = true)
  ∧ ((∀ p ∈ vals, exactHit (lowerStr q) p = false) →
     (∃ p ∈ vals, nameHit (lowerStr q) p = true) →
      ∃ r ∈ vals, find_file_path q vals = some r ∧ nameHit (lowerStr q) r = true)
  ∧ ((∀ p ∈ vals, exactHit (lowerStr q) p = false) →
     (∀ p ∈ vals, nameHit (lowerStr q) p = false) →
      find_file_path q vals = vals.find? (suffixHit (lowerStr q)))
  ∧ find_file_path exShowQuery exButtonPaths = some exButtonA
  ∧ (find_file_path exCheckQuery exButtonPaths).map nameOf = some exButtonName
  ∧ (find_file_path exCheckQuery exButtonPaths.reverse).map nameOf = some exButtonName := by
  refine ⟨?_, ?_, ?_, by decide, by decide, by decide⟩
  · intro hex
    obtain ⟨r, hr, hfind, hhit⟩ := find?_of_exists _ _ hex
    exact ⟨r, hr, by simp [find_file_path, hfind], hhit⟩
  · intro hnoex hex
    have h1 := find?_none_of_all (exactHit (lowerStr q)) vals hnoex
    obtain ⟨r, hr, hfind, hhit⟩ := find?_of_exists _ _ hex
    exact ⟨r, hr, by simp [find_file_path, h1, hfind], hhit⟩
  · intro hnoex hnoname
    have h1 := find?_none_of_all (exactHit (lowerStr q)) vals hnoex
    have h2 := find?_none_of_all (nameHit (lowerStr q)) vals hnoname
    simp [find_file_path, h1, h2]

/-- Witness for C1: instantiated at the spec's filename-level example, the
exact-match hypothesis of the first conjunct holds for the path-level query
and yields the exact path. -/
theorem resolver_priority_order_witness :
    ∃ r ∈ exButtonPaths, find_file_path exShowQuery exButtonPaths = some r ∧
      exactHit (lowerStr exShowQuery) r = true :=
  (resolver_priority_order exShowQuery exButtonPaths).1 (by decide)

/-! ## C7: resolver determinism and fixed tie-break order -/

/-- **C7.** The File Resolver is deterministic: two calls with identical
arguments return the same result, and ties at any priority level are broken
by a fixed, reproducible iteration order — the first path, in the stored
insertion order of `file_map.values()`, that matches at the highest
successful level is returned. -/
theorem resolver_deterministic (q p : Str) (vals l₁ l₂ : List Str) :
    find_file_path q vals = find_file_path q vals
  ∧ (vals = l₁ ++ p :: l₂ → exactHit (lowerStr q) p = true →
      (∀ x ∈ l₁, exactHit (lowerStr q) x = false) →
      find_file_path q vals = some p)
  ∧ (vals = l₁ ++ p :: l₂ → (∀ x ∈ vals, exactHit (lowerStr q) x = false) →
      nameHit (lowerStr q) p = true → (∀ x ∈ l₁, nameHit (lowerStr q) x = false) →
      find_file_path q vals = some p)
  ∧ (vals = l₁ ++ p :: l₂ → (∀ x ∈ vals, exactHit (lowerStr q) x = false) →
      (∀ x ∈ vals, nameHit (lowerStr q) x = false) →
      suffixHit (lowerStr q) p = true → (∀ x ∈ l₁, suffixHit (lowerStr q) x = false) →
      find_file_path q vals = some p) := by
  refine ⟨rfl, ?_, ?_, ?_⟩
  · rintro rfl hp hl
    simp [find_file_path, find?_first _ _ _ _ hp hl]
  · rintro rfl hnoex hp hl
    have h1 := find?_none_of_all (exactHit (lowerStr q)) _ hnoex
    simp [find_file_path, h1, find?_first _ _ _ _ hp hl]
  · rintro rfl hnoex hnoname hp hl
    have h1 := find?_none_of_all (exactHit (lowerStr q)) _ hnoex
    have h2 := find?_none_of_all (nameHit (lowerStr q)) _ hnoname
    simp [find_file_path, h1, h2, find?_first _ _ _ _ hp hl]

/-- Witness for C7: with both tied paths named `Button.tsx` and no exact
match, the resolver returns the first stored path. -/
theorem resolver_deterministic_witness :
    find_file_path exCheckQuery exButtonPaths = some exButtonA :=
  (resolver_deterministic exCheckQuery exButtonA exButtonPaths [] [exButtonB]).2.2.1
    rfl (by decide) (by decide) (by decide)

/-! ## C3: not-loaded check precedes everything -/

/-- **C3.** With no repository loaded (`conversation_chain` is `None`), every
query — whatever its content, display-intent keywords included — gets the
"load a repository first" terminal response with zero Answer Generator
invocations; and at the bot layer, with no `current_repo_url`, `get_response`
returns its own load-first message without touching the analyzer.  The
statement quantifies over the whole query, so the check precedes intent
classification and file resolution. -/
theorem router_not_loaded (gen : Str → GenOutcome) (st : AnalyzerState) (q : Str)
    (h : st.conversation_chain = false) :
    get_code_explanation gen st q = ⟨notLoadedMsg, 0, st.memory⟩
  ∧ get_response gen ⟨none, st⟩ q = ⟨botNotLoadedMsg, 0, st.memory⟩ :=
  ⟨by simp [get_code_explanation, h], rfl⟩

/-- Witness for C3: a fresh analyzer and a display-intent query. -/
theorem router_not_loaded_witness :
    get_code_explanation genNull emptyAnalyzer exShowAppQuery =
      ⟨notLoadedMsg, 0, emptyAnalyzer.memory⟩
  ∧ get_response genNull ⟨none, emptyAnalyzer⟩ exShowAppQuery =
      ⟨botNotLoadedMsg, 0, emptyAnalyzer.memory⟩ :=
  router_not_loaded genNull emptyAnalyzer exShowAppQuery rfl

/-! ## C8: reset is idempotent, total, and teardown-failure tolerant -/

/-- **C8.** `reset()` is idempotent and total: a second reset leaves the
state of the first unchanged; resetting a fresh (nothing-loaded) analyzer is
a no-op and attempts no teardown; the result never depends on whether the
Semantic Index teardown raises (the failure is swallowed), and all local
fields — memory, both dicts, the loaded flag — are cleared either way.
Totality (never raises) is expressed by `resetAnalyzer` being a function. -/
theorem reset_idempotent (s : AnalyzerState) (t₁ t₂ : Bool) :
    resetAnalyzer (resetAnalyzer s t₁) t₂ = resetAnalyzer s t₁
  ∧ resetAnalyzer s true = resetAnalyzer s false
  ∧ resetAnalyzer emptyAnalyzer t₁ = emptyAnalyzer
  ∧ resetAttemptsTeardown emptyAnalyzer = false
  ∧ resetAttemptsTeardown (resetAnalyzer s t₁) = false
  ∧ (resetAnalyzer s t₁).conversation_chain = false
  ∧ (resetAnalyzer s t₁).memory = []
  ∧ (resetAnalyzer s t₁).file_map = []
  ∧ (resetAnalyzer s t₁).file_contents = [] :=
  ⟨rfl, rfl, rfl, rfl, rfl, rfl, rfl, rfl, rfl⟩

/-! ## C5: generator exceptions are contained -/

/-- **C5.** If the conversational chain (Answer Generator / Semantic Index)
raises on a loaded repository, the router returns a user-facing error string
— the distinguished retry message when the exception text contains
"timeout" (case-insensitively), the generic explanation-error message
otherwise — and the conversation memory is exactly what it was before the
call (the failed turn is not appended).  No exception propagates: the
embedding of `get_code_explanation` is a total function into strings. -/
theorem generator_error_contained (st : AnalyzerState) (q m : Str)
    (h : st.conversation_chain = true) :
    (get_code_explanation (fun _ => GenOutcome.err m) st q).memory = st.memory
  ∧ ((get_code_explanation (fun _ => GenOutcome.err m) st q).genCalls = 1 →
      (get_code_explanation (fun _ => GenOutcome.err m) st q).output = errorText m) := by
  rcases hf : find_file_path q (dictValues st.file_map) with _ | p
  · have hgc : get_code_explanation (fun _ => GenOutcome.err m) st q =
        ⟨errorText m, 1, st.memory⟩ := by
      simp [get_code_explanation, h, hf, preCallTimeoutHit, callChain]
    rw [hgc]
    exact ⟨rfl, fun _ => rfl⟩
  · rcases hc : dictFind st.file_contents p with _ | c
    · have hgc : get_code_explanation (fun _ => GenOutcome.err m) st q =
          ⟨contentMissingMsg p, 0, st.memory⟩ := by
        simp [get_code_explanation, h, hf, hc]
      rw [hgc]
      exact ⟨rfl, by intro h1; simp at h1⟩
    · by_cases he : c.isEmpty
      · have hgc : get_code_explanation (fun _ => GenOutcome.err m) st q =
            ⟨contentMissingMsg p, 0, st.memory⟩ := by
          simp [get_code_explanation, h, hf, hc, he]
        rw [hgc]
        exact ⟨rfl, by intro h1; simp at h1⟩
      · by_cases hs : displayKeywords.any (fun k => occursIn k (lowerStr q)) = true
        · have hgc : get_code_explanation (fun _ => GenOutcome.err m) st q =
              ⟨showTemplate p c, 0, st.memory⟩ := by
            simp [get_code_explanation, h, hf, hc, he, hs]
          rw [hgc]
          exact ⟨rfl, by intro h1; simp at h1⟩
        · have hgc : get_code_explanation (fun _ => GenOutcome.err m) st q =
              ⟨errorText m, 1, st.memory⟩ := by
            simp [get_code_explanation, h, hf, hc, he, hs, preCallTimeoutHit, callChain]
          rw [hgc]
          exact ⟨rfl, fun _ => rfl⟩

/-- Witness for C5: a loaded state, an explanation query and a
timeout-flavoured exception. -/
theorem generator_error_contained_witness :
    (get_code_explanation (fun _ => GenOutcome.err exErrMsg) stApp exExplainQuery).memory =
      stApp.memory
  ∧ ((get_code_explanation (fun _ => GenOutcome.err exErrMsg) stApp exExplainQuery).genCalls = 1 →
      (get_code_explanation (fun _ => GenOutcome.err exErrMsg) stApp exExplainQuery).output =
        errorText exErrMsg) :=
  generator_error_contained stApp exExplainQuery exErrMsg rfl

/-! ## C4: the Sources section is dead code -/

/-- **C4 (failing).** On a loaded repository, the explanation query
`"explain app.py"` invokes the generator exactly once and the generator
reports the non-empty source set `[app.py]`, yet the returned text is the
bare answer with no "Sources" section: `hasattr(response,
"source_documents")` is `False` for the `dict` the chain returns, so the
source-appending branch (code_analyzer.py:249-252) never runs, contradicting
the claimed "Sources section iff non-empty source set". -/
theorem sources_section_never_appended :
    (get_code_explanation genWithSources stApp exExplainQuery).genCalls = 1
  ∧ (get_code_explanation genWithSources stApp exExplainQuery).output = exAnswer
  ∧ occursIn sourcesMarker
      (get_code_explanation genWithSources stApp exExplainQuery).output = false
  ∧ ([appPath] : List Str) ≠ [] := by
  refine ⟨by decide, by decide, by decide, by decide⟩

/-! ## C10: a failed load does not restore the previous snapshot -/

/-- **C10.** `load_repository` resets the previous snapshot before cloning,
so when the clone fails the bot keeps the previous `current_repo_url` yet its
analyzer is fully cleared: the call reports the load-error message, and every
subsequent query gets the analyzer's "load a repository first" response with
zero generator invocations — never an answer from the previously loaded
repository. -/
theorem failed_load_clears_previous (split : Str → List Str) (gen : Str → GenOutcome)
    (b : BotState) (u url e q : Str) (td : Bool)
    (hprev : b.current_repo_url = some u) :
    (load_repository split b url (Except.error e) td).1.current_repo_url = some u
  ∧ (load_repository split b url (Except.error e) td).2 = loadFailMsg e
  ∧ (load_repository split b url (Except.error e) td).1.analyzer = emptyAnalyzer
  ∧ get_response gen (load_repository split b url (Except.error e) td).1 q =
      ⟨notLoadedMsg, 0, []⟩ := by
  refine ⟨by simp [load_repository, hprev], rfl, rfl, ?_⟩
  simp [get_response, load_repository, hprev, get_code_explanation, resetAnalyzer]

/-- Witness for C10: a bot holding a loaded `app.py` repository whose next
clone fails. -/
theorem failed_load_clears_previous_witness :
    (load_repository splitOne botPrev exNewUrl (Except.error exCloneErr) false).1.current_repo_url =
      some exOldUrl
  ∧ (load_repository splitOne botPrev exNewUrl (Except.error exCloneErr) false).2 =
      loadFailMsg exCloneErr
  ∧ (load_repository splitOne botPrev exNewUrl (Except.error exCloneErr) false).1.analyzer =
      emptyAnalyzer
  ∧ get_response genNull (load_repository splitOne botPrev exNewUrl
      (Except.error exCloneErr) false).1 exShowAppQuery = ⟨notLoadedMsg, 0, []⟩ :=
  failed_load_clears_previous splitOne genNull botPrev exOldUrl exNewUrl exCloneErr
    exShowAppQuery false rfl

/-! ## Ingestion lemmas for C2 -/

theorem dictFind_insert_same {α : Type} (d : List (Str × α)) (k : Str) (v : α) :
    dictFind (dictInsert d k v) k = some v := by
  induction d with
  | nil => simp [dictInsert, dictFind]
  | cons e rest ih =>
    obtain ⟨k', v'⟩ := e
    by_cases h : k' = k
    · subst h; simp [dictInsert, dictFind]
    · simp [dictInsert, h, dictFind, ih]

theorem dictFind_insert_other {α : Type} (d : List (Str × α)) (a k : Str) (v : α)
    (h : a ≠ k) : dictFind (dictInsert d a v) k = dictFind d k := by
  induction d with
  | nil => simp [dictInsert, dictFind, h]
  | cons e rest ih =>
    obtain ⟨k', v'⟩ := e
    by_cases h' : k' = a
    · subst h'; simp [dictInsert, dictFind, h]
    · simp [dictInsert, h', dictFind, ih]

theorem process_one_contents (split : Str → List Str) (st : AnalyzerState)
    (pc : Str × Str) :
    (process_one split st pc).file_contents =
      if (strip pc.2).isEmpty then st.file_contents
      else dictInsert st.file_contents pc.1 pc.2 := by
  unfold process_one
  by_cases h : (strip pc.2).isEmpty <;> simp [h]

theorem contents_preserved (split : Str → List Str) :
    ∀ (files : List (Str × Str)) (st : AnalyzerState) (p c : Str),
    (∀ c', (p, c') ∈ files → c' = c) →
    dictFind st.file_contents p = some c →
    dictFind ((files.foldl (process_one split) st)).file_contents p = some c := by
  intro files
  induction files with
  | nil => intro st p c _ h; simpa using h
  | cons e rest ih =>
    intro st p c hall hfind
    rw [List.foldl_cons]
    refine ih _ p c (fun c' hc' => hall c' (List.mem_cons_of_mem _ hc')) ?_
    rw [process_one_contents]
    by_cases hs : (strip e.2).isEmpty
    · simpa [hs] using hfind
    · rw [Bool.not_eq_true] at hs
      simp only [hs, Bool.false_eq_true, if_false]
      by_cases hp : e.1 = p
      · have he2 : e.2 = c := hall e.2 (by rw [← hp]; exact List.mem_cons_self e rest)
        rw [hp, he2]
        exact dictFind_insert_same _ _ _
      · rw [dictFind_insert_other _ _ _ _ hp]
        exact hfind

theorem contents_stored (split : Str → List Str) :
    ∀ (files : List (Str × Str)) (st : AnalyzerState) (p c : Str),
    (p, c) ∈ files → (∀ c', (p, c') ∈ files → c' = c) → (strip c).isEmpty = false →
    dictFind ((files.foldl (process_one split) st)).file_contents p = some c := by
  intro files
  induction files with
  | nil => intro st p c hmem; exact absurd hmem (List.not_mem_nil _)
  | cons e rest ih =>
    intro st p c hmem hall hne
    rcases List.mem_cons.mp hmem with heq | hrest
    · rw [List.foldl_cons]
      refine contents_preserved split rest _ p c
        (fun c' hc' => hall c' (List.mem_cons_of_mem _ hc')) ?_
      rw [process_one_contents, ← heq]
      simp only [hne, Bool.false_eq_true, if_false]
      exact dictFind_insert_same _ _ _
    · rw [List.foldl_cons]
      exact ih _ p c hrest (fun c' hc' => hall c' (List.mem_cons_of_mem _ hc')) hne

theorem process_contents (split : Str → List Str) (files : List (Str × Str))
    (p c : Str) (hmem : (p, c) ∈ files) (hall : ∀ c', (p, c') ∈ files → c' = c)
    (hne : (strip c).isEmpty = false) :
    dictFind (process_code_files split emptyAnalyzer files).file_contents p = some c := by
  unfold process_code_files
  have hfe : files.isEmpty = false := by
    rcases files with _ | _
    · exact absurd hmem (List.not_mem_nil _)
    · rfl
  rw [hfe]
  simp only [Bool.false_eq_true, if_false]
  by_cases hd : ((files.map (fileDocs split)).flatten).isEmpty = true
  · simp only [hd, if_true]
    exact contents_stored split files emptyAnalyzer p c hmem hall hne
  · simp only [hd, if_false]
    exact contents_stored split files emptyAnalyzer p c hmem hall hne

theorem process_chain_true (split : Str → List Str) (files : List (Str × Str))
    (hne : files.isEmpty = false)
    (hdocs : ((files.map (fileDocs split)).flatten).isEmpty = false) :
    (process_code_files split emptyAnalyzer files).conversation_chain = true := by
  unfold process_code_files
  simp [hne, hdocs]

/-! ## C2: display intent returns stored content verbatim -/

/-- **C2.** On a repository ingested from `files` (each pair being a path and
the content read for it), a query that resolves to file `p` and contains one
of the spec's display-intent keywords as a case-insensitive substring gets
back exactly the header-plus-fenced-code response built from the content `c`
that was read at ingestion — byte-for-byte, as the decomposition conjunct
shows — with zero Answer Generator invocations and untouched memory. -/
theorem display_query_verbatim (gen : Str → GenOutcome) (split : Str → List Str)
    (files : List (Str × Str)) (q p c : Str)
    (hmem : (p, c) ∈ files)
    (huniq : files.all (fun e => !(e.1 == p) || (e.2 == c)) = true)
    (hne : (strip c).isEmpty = false)
    (hdocs : ((files.map (fileDocs split)).flatten).isEmpty = false)
    (hres : find_file_path q
      (dictValues (process_code_files split emptyAnalyzer files).file_map) = some p)
    (hkw : (specDisplayKeywords.any (fun k => occursIn k (lowerStr q))) = true) :
    get_code_explanation gen (process_code_files split emptyAnalyzer files) q =
      ⟨showTemplate p c, 0, (process_code_files split emptyAnalyzer files).memory⟩
  ∧ ∃ u v, showTemplate p c = u ++ c ++ v := by
  have hall : ∀ c', (p, c') ∈ files → c' = c := by
    intro c' hc'
    have := List.all_eq_true.mp huniq _ hc'
    simpa using this
  have hchain := process_chain_true split files
    (by rcases files with _ | _
        · exact absurd hmem (List.not_mem_nil _)
        · rfl) hdocs
  have hcont := process_contents split files p c hmem hall hne
  have hcne : c.isEmpty = false := by
    rcases c with _ | _
    · simp [strip] at hne
    · rfl
  have hshow : displayKeywords.any (fun k => occursIn k (lowerStr q)) = true := by
    obtain ⟨k, hk, hocc⟩ := List.any_eq_true.mp hkw
    refine List.any_eq_true.mpr ⟨k, ?_, hocc⟩
    fin_cases hk <;> simp [displayKeywords, specDisplayKeywords]
  constructor
  · simp [get_code_explanation, hchain, hres, hcont, hcne, hshow]
  · exact ⟨"📄 Contents of ".data ++ nameOf p ++ " (from ".data ++ p ++ "):\n\n```".data ++
      extOf p ++ "\n".data, "\n```".data, by simp [showTemplate, List.append_assoc]⟩

/-- Witness for C2: ingesting `app.py` and asking `show app.py`. -/
theorem display_query_verbatim_witness :
    get_code_explanation genNull stProc exShowAppQuery =
      ⟨showTemplate appPath appContent, 0, stProc.memory⟩
  ∧ ∃ u v, showTemplate appPath appContent = u ++ appContent ++ v :=
  display_query_verbatim genNull splitOne exFiles exShowAppQuery appPath appContent
    (by decide) (by decide) (by decide) (by decide) (by decide) (by decide)

/-! ## C9: chunk metadata indexes are contiguous -/

theorem filterMap_keep {α β : Type} (f : Nat × α → β) (bad : α → Bool) :
    ∀ (l : List (Nat × α)), (∀ x ∈ l, bad x.2 = false) →
      (l.filterMap (fun x => if bad x.2 then none else some (f x))) = l.map f := by
  intro l
  induction l with
  | nil => simp
  | cons x xs ih =>
    intro h
    have hx : bad x.2 = false := h x (List.mem_cons_self x xs)
    rw [List.filterMap_cons]
    simp only [hx, Bool.false_eq_true, if_false]
    rw [ih (fun y hy => h y (List.mem_cons_of_mem _ hy)), List.map_cons]

theorem snd_mem_of_mem_enum {α : Type} {x : Nat × α} {l : List α}
    (h : x ∈ l.enum) : x.2 ∈ l := by
  rw [List.enum_eq_zip_range] at h
  obtain ⟨x1, x2⟩ := x
  exact (List.of_mem_zip h).2

/-- **C9.** For a file with content `c` whose chunks (as the spec's Chunker
contract §4.2 guarantees for the external splitter: non-empty after
trimming) are registered, the chunk metadata carries chunk ids forming the
contiguous 0-based sequence `0, 1, ..., n-1`; each registered chunk text is
one of the split chunks (in order), is non-empty after trimming, and — when
every chunk is a contiguous substring of the original content — so is each
registered text; finally, for a file that is non-empty after stripping, the
records registered during ingestion are exactly these. -/
theorem chunk_ids_contiguous (split : Str → List Str) (p c : Str)
    (hchunks : ∀ ch ∈ split c, (strip ch).isEmpty = false) :
    (fileDocuments split p c).map (fun d => d.2.chunk_id) = List.range (split c).length
  ∧ (fileDocuments split p c).map (fun d => d.1) = split c
  ∧ (∀ d ∈ fileDocuments split p c, (strip d.1).isEmpty = false)
  ∧ ((∀ ch ∈ split c, occursIn ch c = true) →
      ∀ d ∈ fileDocuments split p c, occursIn d.1 c = true)
  ∧ ((strip c).isEmpty = false → fileDocs split (p, c) = fileDocuments split p c) := by
  have hkeep : fileDocuments split p c =
      (List.enum (split c)).map
        (fun ic => (ic.2, (⟨p, ic.1, extOf p, nameOf p⟩ : ChunkMeta))) := by
    unfold fileDocuments
    exact filterMap_keep
      (fun ic => (ic.2, (⟨p, ic.1, extOf p, nameOf p⟩ : ChunkMeta)))
      (fun ch => (strip ch).isEmpty) (List.enum (split c))
      (fun x hx => hchunks x.2 (snd_mem_of_mem_enum hx))
  have hids : (fileDocuments split p c).map (fun d => d.2.chunk_id) =
      List.range (split c).length := by
    rw [hkeep, List.map_map]
    exact List.enum_map_fst (split c)
  have htexts : (fileDocuments split p c).map (fun d => d.1) = split c := by
    rw [hkeep, List.map_map]
    exact List.enum_map_snd (split c)
  have hmem : ∀ d ∈ fileDocuments split p c, d.1 ∈ split c := by
    intro d hd
    rw [← htexts]
    exact List.mem_map_of_mem _ hd
  refine ⟨hids, htexts, fun d hd => hchunks d.1 (hmem d hd), ?_, ?_⟩
  · intro hsub d hd
    exact hsub d.1 (hmem d hd)
  · intro hne
    unfold fileDocs
    simp [hne]

/-- Witness for C9: the identity chunker on the ingested `app.py` content. -/
theorem chunk_ids_contiguous_witness :
    (fileDocuments splitOne appPath appContent).map (fun d => d.2.chunk_id) =
      List.range (splitOne appContent).length :=
  (chunk_ids_contiguous splitOne appPath appContent (by decide)).1

/-! ## Lexicographic order lemmas for C6 -/

theorem strLe_cons_iff (x y : Char) (xs ys : Str) :
    strLe (x :: xs) (y :: ys) = true ↔
      (x.toNat < y.toNat ∨ (x.toNat = y.toNat ∧ strLe xs ys = true)) := by
  simp [strLe, Bool.or_eq_true, Bool.and_eq_true, decide_eq_true_eq]

theorem strLe_total (a : Str) : ∀ b : Str, strLe a b = true ∨ strLe b a = true := by
  induction a with
  | nil => intro b; left; rfl
  | cons x xs ih =>
    intro b
    cases b with
    | nil => right; rfl
    | cons y ys =>
      rw [strLe_cons_iff, strLe_cons_iff]
      rcases Nat.lt_trichotomy x.toNat y.toNat with h | h | h
      · exact Or.inl (Or.inl h)
      · rcases ih ys with h2 | h2
        · exact Or.inl (Or.inr ⟨h, h2⟩)
        · exact Or.inr (Or.inr ⟨h.symm, h2⟩)
      · exact Or.inr (Or.inl h)

theorem strLe_trans (a : Str) :
    ∀ b c : Str, strLe a b = true → strLe b c = true → strLe a c = true := by
  induction a with
  | nil => intro b c _ _; rfl
  | cons x xs ih =>
    intro b c hab hbc
    cases b with
    | nil => exact absurd hab (by simp [strLe])
    | cons y ys =>
      cases c with
      | nil => exact absurd hbc (by simp [strLe])
      | cons z zs =>
        rw [strLe_cons_iff] at hab hbc ⊢
        rcases hab with h1 | ⟨h1, h1r⟩ <;> rcases hbc with h2 | ⟨h2, h2r⟩
        · exact Or.inl (by omega)
        · exact Or.inl (by omega)
        · exact Or.inl (by omega)
        · exact Or.inr ⟨by omega, ih ys zs h1r h2r⟩

/-! ## Grouping lemmas for C6 -/

theorem pairsOf_cons (e : Str × List Str) (g : List (Str × List Str)) :
    pairsOf (e :: g) = e.2.map (fun f => (e.1, f)) ++ pairsOf g := rfl

theorem pairsOf_addToGroup (g : List (Str × List Str)) (d f : Str) :
    (pairsOf (addToGroup g d f)).Perm (pairsOf g ++ [(d, f)]) := by
  induction g with
  | nil => simp [addToGroup, pairsOf]
  | cons e rest ih =>
    obtain ⟨d', fs⟩ := e
    by_cases h : d' = d
    · subst h
      rw [show addToGroup ((d', fs) :: rest) d' f = (d', fs ++ [f]) :: rest from by
        simp [addToGroup]]
      rw [pairsOf_cons, pairsOf_cons]
      simp only [List.map_append, List.map_cons, List.map_nil]
      rw [List.append_assoc, List.append_assoc]
      exact List.Perm.append_left _ List.perm_append_comm
    · rw [show addToGroup ((d', fs) :: rest) d f = (d', fs) :: addToGroup rest d f from by
        simp [addToGroup, h]]
      rw [pairsOf_cons, pairsOf_cons, List.append_assoc]
      exact List.Perm.append_left _ ih

theorem pairsOf_foldl (ps : List Str) :
    ∀ g : List (Str × List Str),
    (pairsOf (ps.foldl (fun acc p => addToGroup acc (parentOf p) (nameOf p)) g)).Perm
      (pairsOf g ++ ps.map (fun p => (parentOf p, nameOf p))) := by
  induction ps with
  | nil => intro g; simp
  | cons p rest ih =>
    intro g
    rw [List.foldl_cons]
    refine (ih (addToGroup g (parentOf p) (nameOf p))).trans ?_
    refine (List.Perm.append_right _ (pairsOf_addToGroup g (parentOf p) (nameOf p))).trans ?_
    rw [List.append_assoc]
    simp

theorem flatten_congr_perm {α : Type} :
    ∀ {l₁ l₂ : List (List α)}, List.Forall₂ (fun a b => a.Perm b) l₁ l₂ →
      l₁.flatten.Perm l₂.flatten := by
  intro l₁ l₂ h
  induction h with
  | nil => exact List.Perm.refl _
  | cons h _ ih => simpa using h.append ih

theorem pairsOf_sortInner (g : List (Str × List Str)) :
    (pairsOf (g.map (fun e => (e.1, sortStr e.2)))).Perm (pairsOf g) := by
  unfold pairsOf
  rw [List.map_map]
  apply flatten_congr_perm
  induction g with
  | nil => exact List.Forall₂.nil
  | cons e rest ih =>
    rw [List.map_cons, List.map_cons]
    exact List.Forall₂.cons ((List.perm_insertionSort strLeR e.2).map _) ih

theorem pairsOf_outer_perm {g₁ g₂ : List (Str × List Str)} (h : g₁.Perm g₂) :
    (pairsOf g₁).Perm (pairsOf g₂) := (h.map _).flatten

theorem fileStructureGroups_eq (vals : List Str) :
    fileStructureGroups vals =
      (sortGroups ((sortStr vals.dedup).foldl
        (fun acc p => addToGroup acc (parentOf p) (nameOf p)) [])).map
        (fun e => (e.1, sortStr e.2)) := rfl

theorem fileStructure_pairs_perm (vals : List Str) :
    (pairsOf (fileStructureGroups vals)).Perm
      (vals.dedup.map (fun p => (parentOf p, nameOf p))) := by
  rw [fileStructureGroups_eq]
  refine (pairsOf_sortInner _).trans ?_
  refine (pairsOf_outer_perm (List.perm_insertionSort groupLe _)).trans ?_
  refine (pairsOf_foldl _ _).trans ?_
  simpa using (List.perm_insertionSort strLeR vals.dedup).map
    (fun p => (parentOf p, nameOf p))

theorem fileStructure_dirs_sorted (vals : List Str) :
    List.Sorted strLeR ((fileStructureGroups vals).map Prod.fst) := by
  haveI : IsTotal (Str × List Str) groupLe := ⟨fun a b => strLe_total a.1 b.1⟩
  haveI : IsTrans (Str × List Str) groupLe := ⟨fun a b c => strLe_trans a.1 b.1 c.1⟩
  rw [fileStructureGroups_eq, List.map_map]
  exact List.Pairwise.map _ (fun a b h => h)
    (List.sorted_insertionSort groupLe _)

theorem fileStructure_files_sorted (vals : List Str) :
    ∀ g ∈ fileStructureGroups vals, List.Sorted strLeR g.2 := by
  haveI : IsTotal Str strLeR := ⟨strLe_total⟩
  haveI : IsTrans Str strLeR := ⟨strLe_trans⟩
  intro g hg
  rw [fileStructureGroups_eq] at hg
  obtain ⟨e, _, rfl⟩ := List.mem_map.mp hg
  exact List.sorted_insertionSort strLeR e.2

/-! ## C6: structural prompt lists every known file, grouped and sorted -/

/-- **C6.** On a loaded repository, when no file resolves the router calls
the Answer Generator exactly once with the structural prompt and returns its
answer; the prompt contains the user's verbatim question, and its grouped
file structure lists every known (distinct) file path exactly once as a
(parent-directory, filename) entry — the flattened listing is a permutation
of the deduplicated known paths — with the directories sorted
lexicographically and the filenames within each directory sorted
lexicographically. -/
theorem structural_prompt_complete (gen : Str → GenOutcome) (st : AnalyzerState)
    (q : Str) (hloaded : st.conversation_chain = true)
    (hres : find_file_path q (dictValues st.file_map) = none) :
    (get_code_explanation gen st q).genCalls = 1
  ∧ (∀ a s, gen (structuralQuery (dictValues st.file_map) q) = GenOutcome.ok a s →
      (get_code_explanation gen st q).output = a)
  ∧ (∃ u v, structuralQuery (dictValues st.file_map) q = u ++ q ++ v)
  ∧ (pairsOf (fileStructureGroups (dictValues st.file_map))).Perm
      ((dictValues st.file_map).dedup.map (fun p => (parentOf p, nameOf p)))
  ∧ List.Sorted strLeR ((fileStructureGroups (dictValues st.file_map)).map Prod.fst)
  ∧ (∀ g ∈ fileStructureGroups (dictValues st.file_map), List.Sorted strLeR g.2) := by
  have hg : get_code_explanation gen st q =
      callChain gen st.memory (structuralQuery (dictValues st.file_map) q) := by
    simp [get_code_explanation, hloaded, hres, preCallTimeoutHit]
  refine ⟨?_, ?_, ?_, fileStructure_pairs_perm _, fileStructure_dirs_sorted _,
    fileStructure_files_sorted _⟩
  · rw [hg]
    cases hgen : gen (structuralQuery (dictValues st.file_map) q) with
    | ok a s => simp [callChain, hgen]
    | err m => simp [callChain, hgen]
  · intro a s hok
    rw [hg]
    simp [callChain, hok, response_has_source_documents_attr]
  · exact ⟨sqA ++ List.intercalate ("\n".data) (structureLines (dictValues st.file_map)) ++
      sqB, sqC, by simp [structuralQuery, List.append_assoc]⟩

/-- Witness for C6: three files across three directories and a query that
resolves to none of them. -/
theorem structural_prompt_complete_witness :
    (get_code_explanation genNull stThree exHelloQuery).genCalls = 1
  ∧ List.Sorted strLeR
      ((fileStructureGroups (dictValues stThree.file_map)).map Prod.fst) :=
  ⟨(structural_prompt_complete genNull stThree exHelloQuery rfl (by decide)).1,
   (structural_prompt_complete genNull stThree exHelloQuery rfl (by decide)).2.2.2.2.1⟩
